import Mathlib

/-!
Shallow embedding of `src/main.py` of the code-context-agent repository:
an adapter exposing ast-grep structural code search as a callable tool.
The embedding models the data (`CodeMatch`), the subprocess-manager state
(`AstGrepMCPManager`), the executor (`execute_pattern`), the connection
guard (`_ensure_connection`) and the tool's pattern translation
(`SimplifiedFunctionDefinitionTool._run`), with the external engine's
response supplied as an explicit environment parameter and subprocess
activity recorded as an explicit trace.
-/

namespace CodeContextAgent

/-- Structure `CodeMatch` (src/main.py lines 15-21): one normalized search hit.
Byte offsets are Python ints copied verbatim from engine output, so they are
modelled as `Int` with no range restriction. -/
structure CodeMatch where
  file_path : String
  byte_start : Int
  byte_end : Int
  code_snippet : String
  pattern : String
deriving Repr, DecidableEq

/-- The `byteOffset` object inside a hit's `range` field of the engine's JSON
output (read at src/main.py lines 104-105). -/
structure RawByteOffset where
  start : Int
  «end» : Int
deriving Repr, DecidableEq

/-- The `range` field of one hit of the engine's JSON output; `byteOffset`
is `none` when the key is absent (a lookup then raises in the source). -/
structure RawRange where
  byteOffset : Option RawByteOffset
deriving Repr, DecidableEq

/-- One element of the JSON array the engine returns. Each field is `none`
when the corresponding key is absent; the source's subscript lookups
(src/main.py lines 103-106) raise on a missing key, which the surrounding
`try`/`except` turns into an empty result. -/
structure RawHit where
  file : Option String
  range : Option RawRange
  text : Option String
deriving Repr, DecidableEq

/-- State of `AstGrepMCPManager` (src/main.py lines 33-36):
the resolved codebase path and the list of discovered MCP tool names
(`_available_tools`; only the names matter to the control flow). -/
structure ManagerState where
  codebase_path : String
  available_tools : List String
deriving Repr, DecidableEq

/-- The docker arguments `AstGrepMCPManager.connect` spawns the engine with
(src/main.py lines 41-47). -/
def docker_args (codebase_path : String) : List String :=
  ["run", "-i", "--rm", "-v", codebase_path ++ ":/workspace", "-w", "/workspace",
   "mcp/ast-grep"]

/-- Result of a `connect` call: the state afterwards, the returned boolean,
and the argument lists of the subprocesses spawned during the call. -/
structure ConnectResult where
  state : ManagerState
  ok : Bool
  spawned : List (List String)
deriving Repr, DecidableEq

/-- Method `AstGrepMCPManager.connect` (src/main.py lines 38-61). The environment
parameter `discovered` is the outcome of `MCPTool.from_client`: `some tools`
on success, `none` when it raises. On success `_available_tools` is replaced
and `True` returned; on failure the assignment never happens (state is kept)
and `False` is returned. A spawn attempt is made either way. -/
def connect (st : ManagerState) (discovered : Option (List String)) : ConnectResult :=
  match discovered with
  | some tools =>
      { state := { st with available_tools := tools }, ok := true,
        spawned := [docker_args st.codebase_path] }
  | none =>
      { state := st, ok := false, spawned := [docker_args st.codebase_path] }

/-- The argument list `execute_pattern` builds for the engine
(src/main.py lines 77-86). The `--pattern` value is the literal string
`$NAME = $VAL` written in the source; the `files` handling mirrors Python's
truthiness test `if files:` (both `None` and `[]` fall back to `"."`). -/
def buildArgs (language : String) (files : Option (List String)) : List String :=
  let base := ["run", "-l", language, "--pattern", "$NAME = $VAL", "--json"]
  match files with
  | some fs => if fs.isEmpty then base ++ ["."] else base ++ fs
  | none => base ++ ["."]

/-- Building one `CodeMatch` from one hit (src/main.py lines 102-108):
`none` models a `KeyError` from any of the subscript lookups. -/
def parseHit (pattern : String) (h : RawHit) : Option CodeMatch :=
  match h.file, h.range, h.text with
  | some f, some r, some t =>
    match r.byteOffset with
    | some bo =>
        some { file_path := f, byte_start := bo.start, byte_end := bo.«end»,
               code_snippet := t, pattern := pattern }
    | none => none
  | _, _, _ => none

/-- The result-building loop of `execute_pattern` (src/main.py lines 100-109):
all-or-nothing, because an exception on any hit discards the partial list and
the `except` branch returns `[]`. -/
def parse_matches (pattern : String) : List RawHit → Option (List CodeMatch)
  | [] => some []
  | h :: rest =>
    match parseHit pattern h, parse_matches pattern rest with
    | some m, some ms => some (m :: ms)
    | _, _ => none

/-- Result of an `execute_pattern` call: the manager state afterwards, the
returned match list, and the argument lists of the engine invocations
performed during the call. -/
structure ExecResult where
  state : ManagerState
  «matches» : List CodeMatch
  invocations : List (List String)
deriving Repr, DecidableEq

/-- Method `AstGrepMCPManager.execute_pattern` (src/main.py lines 63-115). The
environment parameter `engine` is the engine's parsed JSON response:
`none` when the tool call raises, the JSON cannot be decoded, or the output
is not an array of objects; `some hits` otherwise. With no discovered tools
the call returns `[]` without invoking anything; otherwise the engine is
invoked with `buildArgs` and a parse failure (caught exception) also yields
`[]`. No path mutates the state. -/
def execute_pattern (st : ManagerState) (engine : Option (List RawHit))
    (pattern : String) (language : String) (files : Option (List String)) : ExecResult :=
  if st.available_tools.isEmpty then
    { state := st, «matches» := [], invocations := [] }
  else
    { state := st,
      «matches» :=
        match engine with
        | none => []
        | some hits =>
          match parse_matches pattern hits with
          | none => []
          | some found => found,
      invocations := [buildArgs language files] }

/-- Connection-relevant state of `BaseSimplifiedMCPTool` (src/main.py
lines 124-128): the wrapped manager and the `_connected` flag. -/
structure ToolState where
  manager : ManagerState
  connected : Bool
deriving Repr, DecidableEq

/-- Result of an `_ensure_connection` call: the tool state afterwards, the
returned boolean, and the subprocesses spawned during the call. -/
structure EnsureResult where
  state : ToolState
  ok : Bool
  spawned : List (List String)
deriving Repr, DecidableEq

/-- Method `BaseSimplifiedMCPTool._ensure_connection` (src/main.py lines 136-140):
connects only when `_connected` is false, storing the result in
`_connected`; when already connected it does nothing and spawns nothing. -/
def ensure_connection (ts : ToolState) (discovered : Option (List String)) : EnsureResult :=
  if ts.connected then
    { state := ts, ok := ts.connected, spawned := [] }
  else
    let cr := connect ts.manager discovered
    { state := { manager := cr.state, connected := cr.ok }, ok := cr.ok,
      spawned := cr.spawned }

/-- Structure `FunctionDefinitionInput` (src/main.py lines 170-173): the caller's
search request. -/
structure FunctionDefinitionInput where
  function_name : String
  language : String
  target_files : Option (List String)
deriving Repr, DecidableEq

/-- The pattern construction of `SimplifiedFunctionDefinitionTool._run`
(src/main.py line 193): `f"def {input.function_name}(...): ..."`. -/
def translate (input : FunctionDefinitionInput) : String :=
  "def " ++ input.function_name ++ "(...): ..."

/-- Modelled from the spec: the external pattern-search engine's template
matching, which is not part of this repository (the engine is the ast-grep
subprocess, an external capability the spec assumes correct). Per the spec's
glossary a template pattern is "a query string with literal tokens and
wildcards/metavariables standing for any expression/statement/list"; here a
text matches a pattern when replacing each wildcard token `...` of the
pattern by some (possibly empty) substring yields the text, and every
literal (non-dot) character of the pattern appears verbatim. -/
inductive TMatch : List Char → List Char → Prop
  | nil : TMatch [] []
  | lit {c : Char} {p t : List Char} : c ≠ '.' → TMatch p t → TMatch (c :: p) (c :: t)
  | wild {p t : List Char} (w : List Char) : TMatch p t → TMatch ('.' :: '.' :: '.' :: p) (w ++ t)


/-! Helper lemmas about the modelled engine matching `TMatch`. -/

theorem tmatch_wild_all (w : List Char) : TMatch ['.', '.', '.'] w := by
  have h := TMatch.wild (p := []) w TMatch.nil
  simpa using h

theorem tmatch_lit_front {l p t : List Char} (hl : ∀ c ∈ l, c ≠ '.') (h : TMatch p t) :
    TMatch (l ++ p) (l ++ t) := by
  induction l with
  | nil => exact h
  | cons c cs ih =>
    exact TMatch.lit (hl c (List.mem_cons_self c cs))
      (ih fun d hd => hl d (List.mem_cons_of_mem c hd))

theorem tmatch_cons_lit {c : Char} {p t : List Char} (hc : c ≠ '.') (h : TMatch (c :: p) t) :
    ∃ t', t = c :: t' ∧ TMatch p t' := by
  cases h with
  | lit hne h' => exact ⟨_, rfl, h'⟩
  | wild w h' => exact absurd rfl hc

theorem tmatch_append_lit {l : List Char} (hl : ∀ c ∈ l, c ≠ '.') :
    ∀ {p t : List Char}, TMatch (l ++ p) t → ∃ t', t = l ++ t' ∧ TMatch p t' := by
  induction l with
  | nil => intro p t h; exact ⟨t, rfl, h⟩
  | cons c cs ih =>
    intro p t h
    obtain ⟨t', rfl, h'⟩ := tmatch_cons_lit (hl c (by simp)) h
    obtain ⟨t'', rfl, h''⟩ := ih (fun d hd => hl d (by simp [hd])) h'
    exact ⟨t'', rfl, h''⟩

theorem tmatch_fundef_list (n ps body : List Char) (hn : ∀ c ∈ n, c ≠ '.') :
    TMatch (('d':: 'e':: 'f':: ' '::n) ++ ('(':: '.':: '.':: '.':: ')':: ':':: ' ':: '.':: '.':: '.'::[]))
           (('d':: 'e':: 'f':: ' '::n) ++ ('('::(ps ++ (')':: ':':: ' '::body)))) := by
  apply tmatch_lit_front
  · intro c hc
    rcases List.mem_cons.1 hc with rfl | hc
    · decide
    rcases List.mem_cons.1 hc with rfl | hc
    · decide
    rcases List.mem_cons.1 hc with rfl | hc
    · decide
    rcases List.mem_cons.1 hc with rfl | hc
    · decide
    exact hn c hc
  · exact TMatch.lit (by decide)
      (TMatch.wild ps
        (TMatch.lit (by decide) (TMatch.lit (by decide) (TMatch.lit (by decide)
          (tmatch_wild_all body)))))

theorem tmatch_call_false (n args : List Char) (hn : ∀ c ∈ n, c ≠ '.' ∧ c ≠ ' ') :
    ¬ TMatch (('d':: 'e':: 'f':: ' '::n) ++ ('(':: '.':: '.':: '.':: ')':: ':':: ' ':: '.':: '.':: '.'::[]))
             (n ++ ('('::(args ++ [')']))) := by
  intro h
  have h2 : TMatch (('d':: 'e':: 'f':: ' '::(n ++ ['('])) ++ ('.':: '.':: '.':: ')':: ':':: ' ':: '.':: '.':: '.'::[]))
      (n ++ ('('::(args ++ [')']))) := by
    simpa [List.append_assoc] using h
  obtain ⟨t', ht, _⟩ := tmatch_append_lit
    (l := 'd':: 'e':: 'f':: ' '::(n ++ ['(']))
    (by
      intro c hc
      rcases List.mem_cons.1 hc with rfl | hc
      · decide
      rcases List.mem_cons.1 hc with rfl | hc
      · decide
      rcases List.mem_cons.1 hc with rfl | hc
      · decide
      rcases List.mem_cons.1 hc with rfl | hc
      · decide
      rcases List.mem_append.1 hc with hc | hc
      · exact (hn c hc).1
      · simp at hc; subst hc; decide)
    h2
  rcases n with _ | ⟨a, _ | ⟨b, _ | ⟨c, _ | ⟨d, m⟩⟩⟩⟩ <;> simp_all

theorem tmatch_assign_false (n rhs : List Char) (hn : ∀ c ∈ n, c ≠ '.' ∧ c ≠ ' ') :
    ¬ TMatch (('d':: 'e':: 'f':: ' '::n) ++ ('(':: '.':: '.':: '.':: ')':: ':':: ' ':: '.':: '.':: '.'::[]))
             (n ++ (' ':: '=':: ' '::rhs)) := by
  intro h
  have h2 : TMatch (('d':: 'e':: 'f':: ' '::(n ++ ['('])) ++ ('.':: '.':: '.':: ')':: ':':: ' ':: '.':: '.':: '.'::[]))
      (n ++ (' ':: '=':: ' '::rhs)) := by
    simpa [List.append_assoc] using h
  obtain ⟨t', ht, _⟩ := tmatch_append_lit
    (l := 'd':: 'e':: 'f':: ' '::(n ++ ['(']))
    (by
      intro c hc
      rcases List.mem_cons.1 hc with rfl | hc
      · decide
      rcases List.mem_cons.1 hc with rfl | hc
      · decide
      rcases List.mem_cons.1 hc with rfl | hc
      · decide
      rcases List.mem_cons.1 hc with rfl | hc
      · decide
      rcases List.mem_append.1 hc with hc | hc
      · exact (hn c hc).1
      · simp at hc; subst hc; decide)
    h2
  rcases n with _ | ⟨a, _ | ⟨b, _ | ⟨c, _ | ⟨d, m⟩⟩⟩⟩ <;> simp_all
  exact absurd (ht.2.2.2.1.trans ht.1) (by decide)

/-! Helper lemmas about the executor's result normalization. -/

theorem parseHit_shape {p : String} {h : RawHit} {m : CodeMatch}
    (hp : parseHit p h = some m) :
    m.pattern = p ∧ ∃ r, h.range = some r ∧ ∃ bo, r.byteOffset = some bo ∧
      m.byte_start = bo.start ∧ m.byte_end = bo.«end» := by
  unfold parseHit at hp
  split at hp
  · rename_i f r t hf hr ht
    split at hp
    · rename_i bo hbo
      obtain rfl : _ = m := Option.some.inj hp
      exact ⟨rfl, r, hr, bo, hbo, rfl, rfl⟩
    · simp at hp
  · simp at hp

theorem parse_matches_provenance {p : String} :
    ∀ {hits : List RawHit} {ms : List CodeMatch}, parse_matches p hits = some ms →
      ∀ m ∈ ms, ∃ h ∈ hits, parseHit p h = some m := by
  intro hits
  induction hits with
  | nil =>
    intro ms hms m hm
    rw [parse_matches] at hms
    obtain rfl : _ = ms := Option.some.inj hms
    simp at hm
  | cons h rest ih =>
    intro ms hms m hm
    rw [parse_matches] at hms
    cases hph : parseHit p h <;> rw [hph] at hms
    · simp at hms
    cases hpr : parse_matches p rest <;> rw [hpr] at hms
    · simp at hms
    rename_i m0 ms0
    obtain rfl : m0 :: ms0 = ms := Option.some.inj hms
    rcases List.mem_cons.1 hm with rfl | hm
    · exact ⟨h, List.mem_cons_self h rest, hph⟩
    · obtain ⟨h1, hh1, hph1⟩ := ih hpr m hm
      exact ⟨h1, List.mem_cons_of_mem h hh1, hph1⟩

theorem execute_pattern_provenance {st : ManagerState} {hits : List RawHit}
    {p l : String} {f : Option (List String)} :
    ∀ m ∈ (execute_pattern st (some hits) p l f).«matches», ∃ h ∈ hits, parseHit p h = some m := by
  intro m hm
  unfold execute_pattern at hm
  by_cases he : st.available_tools.isEmpty
  · rw [if_pos he] at hm
    simp at hm
  · rw [if_neg he] at hm
    have hm' : m ∈ (match parse_matches p hits with
        | none => ([] : List CodeMatch)
        | some found => found) := hm
    cases hpm : parse_matches p hits <;> rw [hpm] at hm'
    · simp at hm'
    · exact parse_matches_provenance hpm m hm'

/-! Claim theorems. -/

/-- C1: the spec's invocation contract says the Executor invokes the engine
with `run, -l l, --pattern p, --json, scope-or-dot` where `p` is the
translated pattern. The code instead always passes the literal string
`$NAME = $VAL` after `--pattern` (src/main.py line 80), ignoring its
`pattern` argument there. Evaluating the executor at a failing input:
with one discovered tool and the translated pattern
`def add_samples(...): ...`, the single invocation's arguments carry
`$NAME = $VAL` as the `--pattern` value, and the caller's pattern occurs
nowhere in the arguments. -/
theorem C1_invocation_uses_fixed_pattern :
    (execute_pattern ⟨"/repo", ["ast-grep"]⟩ (some [])
        "def add_samples(...): ..." "python" none).invocations =
      [["run", "-l", "python", "--pattern", "$NAME = $VAL", "--json", "."]] ∧
    ((execute_pattern ⟨"/repo", ["ast-grep"]⟩ (some [])
        "def add_samples(...): ..." "python" none).invocations.flatten.contains
      "def add_samples(...): ...") = false := by
  decide

/-- C2: for every function name `N` (an identifier: no `.` and no space),
the translation for query kind function-definition-by-name produces the
pattern `def N(...): ...`, in which `N` appears as a literal token and the
parameter list and body are the wildcard token `...`; under the modelled
engine matching `TMatch`, the pattern matches a function definition of `N`
(any parameter text, any body text) but matches neither a call expression
`N(...)` nor an assignment `N = ...`. -/
theorem C2_translation_function_name_literal (i : FunctionDefinitionInput)
    (ps body args rhs : String)
    (hN : ∀ c ∈ i.function_name.data, c ≠ '.' ∧ c ≠ ' ') :
    translate i = "def " ++ i.function_name ++ "(...): ..." ∧
    TMatch (translate i).data
      ("def " ++ i.function_name ++ "(" ++ ps ++ "): " ++ body).data ∧
    ¬ TMatch (translate i).data (i.function_name ++ "(" ++ args ++ ")").data ∧
    ¬ TMatch (translate i).data (i.function_name ++ " = " ++ rhs).data := by
  refine ⟨rfl, ?_, ?_, ?_⟩
  · have e2 : ("def " ++ i.function_name ++ "(" ++ ps ++ "): " ++ body).data
        = ('d':: 'e':: 'f':: ' '::i.function_name.data)
            ++ ('('::(ps.data ++ (')':: ':':: ' '::body.data))) := by
      show ((((['d','e','f',' '] ++ i.function_name.data) ++ ['(']) ++ ps.data)
          ++ [')',':',' ']) ++ body.data = _
      simp
    rw [e2]
    exact tmatch_fundef_list i.function_name.data ps.data body.data
      (fun c hc => (hN c hc).1)
  · have e3 : (i.function_name ++ "(" ++ args ++ ")").data
        = i.function_name.data ++ ('('::(args.data ++ [')'])) := by
      show ((i.function_name.data ++ ['(']) ++ args.data) ++ [')'] = _
      simp
    rw [e3]
    exact tmatch_call_false i.function_name.data args.data hN
  · have e4 : (i.function_name ++ " = " ++ rhs).data
        = i.function_name.data ++ (' ':: '=':: ' '::rhs.data) := by
      show (i.function_name.data ++ [' ','=',' ']) ++ rhs.data = _
      simp
    rw [e4]
    exact tmatch_assign_false i.function_name.data rhs.data hN

/-- C2 witness: the translation for `add_samples` matches
`def add_samples(x): return x` and matches neither the call
`add_samples(x)` nor the assignment `add_samples = 5`. -/
theorem C2_translation_witness :
    translate ⟨"add_samples", "python", none⟩ = "def add_samples(...): ..." ∧
    TMatch (translate ⟨"add_samples", "python", none⟩).data
      ("def " ++ "add_samples" ++ "(" ++ "x" ++ "): " ++ "return x").data ∧
    ¬ TMatch (translate ⟨"add_samples", "python", none⟩).data
      ("add_samples" ++ "(" ++ "x" ++ ")").data ∧
    ¬ TMatch (translate ⟨"add_samples", "python", none⟩).data
      ("add_samples" ++ " = " ++ "5").data := by
  have h := C2_translation_function_name_literal ⟨"add_samples", "python", none⟩
    "x" "return x" "x" "5" (by decide)
  exact ⟨by rfl, h.2.1, h.2.2.1, h.2.2.2⟩

/-- C3 counterexample: with no discovered engine operations, an execute
call does not fail with a `NotConnected` error: the source prints a
diagnostic and returns the plain empty match list (src/main.py
lines 71-73), the very value a Ready connection returns on zero hits.
Here a state with no tools yields the normal result with empty matches
and no invocation, and its match list coincides with that of a Ready
zero-hit execution. -/
theorem C3_counterexample_no_tools_returns_empty :
    execute_pattern ⟨"/repo", []⟩
        (some [{ file := some "a.py",
                 range := some { byteOffset := some { start := 10, «end» := 20 } },
                 text := some "def f(): pass" }])
        "def add_samples(...): ..." "python" none =
      { state := ⟨"/repo", []⟩, «matches» := [], invocations := [] } ∧
    (execute_pattern ⟨"/repo", []⟩
        (some [{ file := some "a.py",
                 range := some { byteOffset := some { start := 10, «end» := 20 } },
                 text := some "def f(): pass" }])
        "def add_samples(...): ..." "python" none).«matches» =
      (execute_pattern ⟨"/repo", ["ast-grep"]⟩ (some [])
        "def add_samples(...): ..." "python" none).«matches» := by
  decide

/-- C3 (amended): for every pattern, language and scope, calling execute
while the connection is not Ready (no engine operations discovered)
returns the empty match list and performs no engine invocation, leaving
the state unchanged; the source signals the condition only by a printed
diagnostic, not by a `NotConnected` failure. -/
theorem C3_no_tools_no_invocation (st : ManagerState) (engine : Option (List RawHit))
    (p l : String) (f : Option (List String)) (h : st.available_tools = []) :
    execute_pattern st engine p l f =
      { state := st, «matches» := [], invocations := [] } := by
  simp [execute_pattern, h]

/-- C3 witness: concrete disconnected state. -/
theorem C3_no_tools_witness :
    execute_pattern ⟨"/repo", []⟩ none "p" "python" none =
      { state := ⟨"/repo", []⟩, «matches» := [], invocations := [] } :=
  C3_no_tools_no_invocation ⟨"/repo", []⟩ none "p" "python" none rfl

/-- C4 counterexample: engine output whose single hit misses its `range`
field does not cause an `ExecutionError`: the executor's result is
exactly equal to the result of a run whose engine reports zero hits —
the empty match list is produced as a substitute for an error. -/
theorem C4_counterexample_malformed_equals_zero_hits :
    execute_pattern ⟨"/repo", ["ast-grep"]⟩
        (some [{ file := some "a.py", range := none, text := some "x" }])
        "p" "python" none =
      execute_pattern ⟨"/repo", ["ast-grep"]⟩ (some []) "p" "python" none := by
  decide

/-- C4 (amended): for every engine response that cannot be parsed as the
expected structured format (any hit missing a required field) and for
every failed engine run (modelled `none`), execute returns the empty
match list — the caught exception path — rather than an
`ExecutionError`; the outcome is indistinguishable from zero hits. -/
theorem C4_failures_return_empty (st : ManagerState) (p l : String)
    (f : Option (List String)) (hits : List RawHit)
    (hbad : parse_matches p hits = none) :
    (execute_pattern st (some hits) p l f).«matches» = [] ∧
    (execute_pattern st none p l f).«matches» = [] := by
  constructor <;> unfold execute_pattern <;> split <;> simp [hbad]

/-- C4 witness: a hit missing its `range` field. -/
theorem C4_failures_witness :
    (execute_pattern ⟨"/repo", ["ast-grep"]⟩
        (some [{ file := some "a.py", range := none, text := some "x" }])
        "p" "python" none).«matches» = [] ∧
    (execute_pattern ⟨"/repo", ["ast-grep"]⟩ none "p" "python" none).«matches» = [] :=
  C4_failures_return_empty ⟨"/repo", ["ast-grep"]⟩ "p" "python" none
    [{ file := some "a.py", range := none, text := some "x" }] (by decide)

/-- C5: for every input pattern `p` (and any language, scope and
connected state), when the engine output is the single hit
`{file: "a.py", range: {byteOffset: {start: 10, end: 20}}, text: "def f(): pass"}`,
execute returns exactly one match record with file_path `a.py`,
byte_start 10, byte_end 20, code_snippet `def f(): pass` and pattern `p`. -/
theorem C5_single_hit_normalized (st : ManagerState) (p l : String)
    (f : Option (List String)) (h : st.available_tools ≠ []) :
    (execute_pattern st
        (some [{ file := some "a.py",
                 range := some { byteOffset := some { start := 10, «end» := 20 } },
                 text := some "def f(): pass" }]) p l f).«matches» =
      [{ file_path := "a.py", byte_start := 10, byte_end := 20,
         code_snippet := "def f(): pass", pattern := p }] := by
  have hne : st.available_tools.isEmpty = false := by simp [List.isEmpty_iff, h]
  simp [execute_pattern, hne, parse_matches, parseHit]

/-- C5 witness: concrete connected state and pattern. -/
theorem C5_single_hit_witness :
    (execute_pattern ⟨"/repo", ["ast-grep"]⟩
        (some [{ file := some "a.py",
                 range := some { byteOffset := some { start := 10, «end» := 20 } },
                 text := some "def f(): pass" }])
        "def add_samples(...): ..." "python" none).«matches» =
      [{ file_path := "a.py", byte_start := 10, byte_end := 20,
         code_snippet := "def f(): pass", pattern := "def add_samples(...): ..." }] :=
  C5_single_hit_normalized ⟨"/repo", ["ast-grep"]⟩ "def add_samples(...): ..."
    "python" none (by decide)

/-- C6: translation is deterministic and byte-identical across calls: two
requests with the same function name (in particular two identical
`SearchRequest`s) translate to equal pattern strings; `translate` is a
pure total function of the request and involves no engine invocation. -/
theorem C6_translate_deterministic (i j : FunctionDefinitionInput)
    (h : i.function_name = j.function_name) : translate i = translate j := by
  simp [translate, h]

/-- C6 witness: same name, different language and scope. -/
theorem C6_translate_witness :
    translate ⟨"add_samples", "python", none⟩ =
      translate ⟨"add_samples", "rust", some ["a.py"]⟩ :=
  C6_translate_deterministic ⟨"add_samples", "python", none⟩
    ⟨"add_samples", "rust", some ["a.py"]⟩ rfl

/-- C7: calling the tool's connect path (`_ensure_connection`) while the
connection flag is already set is a no-op: the state (manager and flag)
is returned unchanged, the call reports success, and no second engine
subprocess is spawned. -/
theorem C7_ensure_connection_idempotent (ts : ToolState)
    (discovered : Option (List String)) (h : ts.connected = true) :
    ensure_connection ts discovered = { state := ts, ok := true, spawned := [] } := by
  simp [ensure_connection, h]

/-- C7 witness: concrete connected tool state. -/
theorem C7_ensure_connection_witness :
    ensure_connection ⟨⟨"/repo", ["ast-grep"]⟩, true⟩ (some ["other"]) =
      { state := ⟨⟨"/repo", ["ast-grep"]⟩, true⟩, ok := true, spawned := [] } :=
  C7_ensure_connection_idempotent ⟨⟨"/repo", ["ast-grep"]⟩, true⟩ (some ["other"]) rfl

/-- C8 counterexample: the executor accepts engine output with an inverted
byte range (start 20, end 10) and constructs the match record verbatim,
so the produced record violates `0 <= byte_start <= byte_end`: mapping the
validity check over the returned matches yields `[false]`. -/
theorem C8_counterexample_inverted_offsets_accepted :
    ((execute_pattern ⟨"/repo", ["ast-grep"]⟩
        (some [{ file := some "a.py",
                 range := some { byteOffset := some { start := 20, «end» := 10 } },
                 text := some "x" }]) "p" "python" none).«matches».map
      (fun m => decide (0 ≤ m.byte_start ∧ m.byte_start ≤ m.byte_end))) = [false] := by
  decide

/-- C8 (amended): the Executor performs no validation of byte offsets: it
copies each accepted hit's `byteOffset.start`/`byteOffset.end` verbatim
into the record, so every constructed match record satisfies
`0 <= byte_start <= byte_end` exactly when the engine output it was built
from satisfies that bound. -/
theorem C8_offsets_copied_from_engine (st : ManagerState) (hits : List RawHit)
    (p l : String) (f : Option (List String))
    (hok : ∀ h ∈ hits, ∀ r, h.range = some r → ∀ bo, r.byteOffset = some bo →
      0 ≤ bo.start ∧ bo.start ≤ bo.«end») :
    ∀ m ∈ (execute_pattern st (some hits) p l f).«matches»,
      0 ≤ m.byte_start ∧ m.byte_start ≤ m.byte_end := by
  intro m hm
  obtain ⟨h1, hh1, hph⟩ := execute_pattern_provenance m hm
  obtain ⟨-, r, hr, bo, hbo, hbs, hbe⟩ := parseHit_shape hph
  rw [hbs, hbe]
  exact hok h1 hh1 r hr bo hbo

/-- C8 witness: well-formed offsets propagate to a well-formed record. -/
theorem C8_offsets_witness :
    0 ≤ ({ file_path := "a.py", byte_start := 10, byte_end := 20,
           code_snippet := "def f(): pass", pattern := "p" } : CodeMatch).byte_start ∧
    ({ file_path := "a.py", byte_start := 10, byte_end := 20,
       code_snippet := "def f(): pass", pattern := "p" } : CodeMatch).byte_start ≤
      ({ file_path := "a.py", byte_start := 10, byte_end := 20,
         code_snippet := "def f(): pass", pattern := "p" } : CodeMatch).byte_end :=
  C8_offsets_copied_from_engine ⟨"/repo", ["ast-grep"]⟩
    [{ file := some "a.py",
       range := some { byteOffset := some { start := 10, «end» := 20 } },
       text := some "def f(): pass" }] "p" "python" none
    (by decide)
    { file_path := "a.py", byte_start := 10, byte_end := 20,
      code_snippet := "def f(): pass", pattern := "p" }
    (by decide)

/-- C9: no execute call — in particular none that takes an error path
(engine failure or unparseable output) — mutates the connection state:
the codebase path and the discovered tool list are identical before and
after, and a subsequent execute on the resulting state behaves exactly as
on the original state. -/
theorem C9_execute_preserves_state (st : ManagerState)
    (engine engine2 : Option (List RawHit)) (p l p2 l2 : String)
    (f f2 : Option (List String)) :
    (execute_pattern st engine p l f).state = st ∧
    execute_pattern (execute_pattern st engine p l f).state engine2 p2 l2 f2 =
      execute_pattern st engine2 p2 l2 f2 := by
  have hstate : (execute_pattern st engine p l f).state = st := by
    unfold execute_pattern
    split <;> rfl
  exact ⟨hstate, by rw [hstate]⟩

/-- C10: every match record returned by `execute_pattern` carries the
caller's `pattern` argument `p` in its pattern field, while the
subprocess invocation is independent of `p` and always passes the fixed
string `$NAME = $VAL` as the `--pattern` value. -/
theorem C10_pattern_field_is_callers (st : ManagerState)
    (engine : Option (List RawHit)) (p p2 l : String) (f : Option (List String)) :
    (∀ m ∈ (execute_pattern st engine p l f).«matches», m.pattern = p) ∧
    (execute_pattern st engine p l f).invocations =
      (execute_pattern st engine p2 l f).invocations ∧
    (∀ args ∈ (execute_pattern st engine p l f).invocations, args = buildArgs l f) ∧
    (buildArgs l f).get? 3 = some "--pattern" ∧
    (buildArgs l f).get? 4 = some "$NAME = $VAL" := by
  refine ⟨?_, ?_, ?_, ?_, ?_⟩
  · intro m hm
    cases engine with
    | none =>
      have hm' : m ∈ ((execute_pattern st none p l f).«matches») := hm
      unfold execute_pattern at hm'
      by_cases he : st.available_tools.isEmpty
      · rw [if_pos he] at hm'
        simp at hm'
      · rw [if_neg he] at hm'
        simp at hm'
    | some hits =>
      obtain ⟨h1, hh1, hph⟩ := execute_pattern_provenance m hm
      exact (parseHit_shape hph).1
  · unfold execute_pattern
    split <;> rfl
  · intro args hargs
    unfold execute_pattern at hargs
    by_cases he : st.available_tools.isEmpty
    · rw [if_pos he] at hargs
      simp at hargs
    · rw [if_neg he] at hargs
      have hargs' : args ∈ [buildArgs l f] := hargs
      simpa using hargs'
  · cases f with
    | none => rfl
    | some fs =>
      by_cases he : fs.isEmpty
      · simp [buildArgs, he]
      · simp [buildArgs, he]
  · cases f with
    | none => rfl
    | some fs =>
      by_cases he : fs.isEmpty
      · simp [buildArgs, he]
      · simp [buildArgs, he]

/-- C10 witness: at a concrete connected state, successful hit and two
distinct caller patterns. -/
theorem C10_pattern_field_witness :
    ({ file_path := "a.py", byte_start := 10, byte_end := 20,
       code_snippet := "def f(): pass", pattern := "p1" } : CodeMatch).pattern = "p1" ∧
    (execute_pattern ⟨"/repo", ["ast-grep"]⟩
        (some [{ file := some "a.py",
                 range := some { byteOffset := some { start := 10, «end» := 20 } },
                 text := some "def f(): pass" }]) "p1" "python" none).invocations =
      (execute_pattern ⟨"/repo", ["ast-grep"]⟩
        (some [{ file := some "a.py",
                 range := some { byteOffset := some { start := 10, «end» := 20 } },
                 text := some "def f(): pass" }]) "p2" "python" none).invocations := by
  have h := C10_pattern_field_is_callers ⟨"/repo", ["ast-grep"]⟩
    (some [{ file := some "a.py",
             range := some { byteOffset := some { start := 10, «end» := 20 } },
             text := some "def f(): pass" }]) "p1" "p2" "python" none
  exact ⟨h.1 _ (by decide), h.2.1⟩

end CodeContextAgent
